import Mathlib

/-!
Shallow embedding of the security-descriptor decoding subsystem of the
`winstructs` crate (`src/security/*.rs` and the older monolithic revision
`src/security.rs`), together with theorems settling the frozen claims.

Streams are modelled as `List Nat` of byte values (each < 256 on real input);
every reader-style decoder is a function `List Nat → Option (α × List Nat)`
returning the decoded value and the unread remainder, mirroring Rust's
`from_reader(&mut R)` cursor semantics.  Fallible machine arithmetic is
modelled with explicit `% 2^w` at the spots where the Rust source performs
fixed-width arithmetic.
-/

/-- `reader.read_u8()`: one byte off the stream. -/
def readU8 : List Nat → Option (Nat × List Nat)
  | [] => none
  | b :: rest => some (b, rest)

/-- `reader.read_u16::<LittleEndian>()`. -/
def readU16LE : List Nat → Option (Nat × List Nat)
  | b0 :: b1 :: rest => some (b0 + 256 * b1, rest)
  | _ => none

/-- `reader.read_u32::<LittleEndian>()`. -/
def readU32LE : List Nat → Option (Nat × List Nat)
  | b0 :: b1 :: b2 :: b3 :: rest =>
      some (b0 + 256 * b1 + 65536 * b2 + 16777216 * b3, rest)
  | _ => none

/-- `reader.read_u16::<BigEndian>()`. -/
def readU16BE : List Nat → Option (Nat × List Nat)
  | b0 :: b1 :: rest => some (256 * b0 + b1, rest)
  | _ => none

/-- `reader.read_u32::<BigEndian>()`. -/
def readU32BE : List Nat → Option (Nat × List Nat)
  | b0 :: b1 :: b2 :: b3 :: rest =>
      some (16777216 * b0 + 65536 * b1 + 256 * b2 + b3, rest)
  | _ => none

/-- `reader.read_exact(&mut buf)` into a buffer of length `n`: fails (I/O
error) when fewer than `n` bytes remain. -/
def readExact (n : Nat) (bs : List Nat) : Option (List Nat × List Nat) :=
  if n ≤ bs.length then some (bs.take n, bs.drop n) else none

theorem obind_eq_some {α β : Type} {x : Option α} {f : α → Option β} {b : β} :
    (x >>= f) = some b ↔ ∃ a, x = some a ∧ f a = some b := by
  cases x <;> simp

theorem readU8_extend {bs e r : List Nat} {v : Nat}
    (h : readU8 bs = some (v, r)) : readU8 (bs ++ e) = some (v, r ++ e) := by
  cases bs with
  | nil => simp [readU8] at h
  | cons a t =>
      simp only [readU8, Option.some.injEq, Prod.mk.injEq] at h
      obtain ⟨rfl, rfl⟩ := h
      simp [readU8]

theorem readU16LE_extend {bs e r : List Nat} {v : Nat}
    (h : readU16LE bs = some (v, r)) : readU16LE (bs ++ e) = some (v, r ++ e) := by
  rcases bs with _ | ⟨b0, _ | ⟨b1, rest⟩⟩
  · simp [readU16LE] at h
  · simp [readU16LE] at h
  · simp only [readU16LE, Option.some.injEq, Prod.mk.injEq] at h
    obtain ⟨rfl, rfl⟩ := h
    simp [readU16LE]

theorem readU32LE_extend {bs e r : List Nat} {v : Nat}
    (h : readU32LE bs = some (v, r)) : readU32LE (bs ++ e) = some (v, r ++ e) := by
  rcases bs with _ | ⟨b0, _ | ⟨b1, _ | ⟨b2, _ | ⟨b3, rest⟩⟩⟩⟩
  · simp [readU32LE] at h
  · simp [readU32LE] at h
  · simp [readU32LE] at h
  · simp [readU32LE] at h
  · simp only [readU32LE, Option.some.injEq, Prod.mk.injEq] at h
    obtain ⟨rfl, rfl⟩ := h
    simp [readU32LE]

theorem readExact_extend {n : Nat} {bs e buf r : List Nat}
    (h : readExact n bs = some (buf, r)) :
    readExact n (bs ++ e) = some (buf, r ++ e) := by
  unfold readExact at h ⊢
  split at h
  · rename_i hle
    obtain ⟨rfl, rfl⟩ := by
      simpa using h
    rw [if_pos (by simp; omega)]
    rw [List.take_append_of_le_length hle, List.drop_append_of_le_length hle]
  · exact absurd h (by simp)

theorem readU16LE_drop {bs r : List Nat} {v : Nat}
    (h : readU16LE bs = some (v, r)) : r = bs.drop 2 := by
  rcases bs with _ | ⟨b0, _ | ⟨b1, rest⟩⟩ <;> simp [readU16LE] at h <;> simp [h]

theorem readU32LE_drop {bs r : List Nat} {v : Nat}
    (h : readU32LE bs = some (v, r)) : r = bs.drop 4 := by
  rcases bs with _ | ⟨b0, _ | ⟨b1, _ | ⟨b2, _ | ⟨b3, rest⟩⟩⟩⟩ <;>
    simp [readU32LE] at h <;> simp [h]

theorem readExact_drop {n : Nat} {bs buf r : List Nat}
    (h : readExact n bs = some (buf, r)) :
    buf = bs.take n ∧ r = bs.drop n ∧ n ≤ bs.length := by
  unfold readExact at h
  split at h
  · rename_i hle
    refine ⟨?_, ?_, hle⟩ <;> simp_all
  · simp at h

/-- `Guid` (src/guid.rs): four-field GUID as the crate stores it. -/
structure Guid where
  data1 : Nat
  data2 : Nat
  data3 : Nat
  data4 : List Nat
deriving DecidableEq

/-- `Guid::from_reader` (src/guid.rs lines 58-67): u32 LE, u16 LE, u16 LE,
then 8 raw bytes. -/
def Guid.from_reader (bs : List Nat) : Option (Guid × List Nat) := do
  let (data1, bs) ← readU32LE bs
  let (data2, bs) ← readU16LE bs
  let (data3, bs) ← readU16LE bs
  let (data4, bs) ← readExact 8 bs
  some ({ data1 := data1, data2 := data2, data3 := data3, data4 := data4 }, bs)

/-- Big-endian value of a byte list (how `BigEndian::read_u64` combines
bytes). -/
def beBytes (l : List Nat) : Nat := l.foldl (fun acc b => acc * 256 + b) 0

/-- `Authority::new` (src/security.rs lines 629-638, the older revision):
`BigEndian::read_u64` of two zero bytes followed by the first six buffer
bytes; index-out-of-bounds on a shorter buffer is modelled as `none`. -/
def Authority.new (buffer : List Nat) : Option Nat :=
  if 6 ≤ buffer.length then some (beBytes ([0, 0] ++ buffer.take 6)) else none

/-- `Authority::from_reader` (src/security/authority.rs lines 17-22): reads a
big-endian u32 and a big-endian u16 and combines them as
`u64::from((id_high as u16) ^ id_low)` — the `as u16` cast keeps only the low
16 bits of `id_high`, modelled as `% 65536`. -/
def Authority.from_reader (bs : List Nat) : Option (Nat × List Nat) := do
  let (idHigh, bs) ← readU32BE bs
  let (idLow, bs) ← readU16BE bs
  some (Nat.xor (idHigh % 65536) idLow, bs)

/-- `SubAuthority::from_reader` (src/security/authority.rs lines 70-72):
a little-endian u32. -/
def SubAuthority.from_reader (bs : List Nat) : Option (Nat × List Nat) :=
  readU32LE bs

/-- `SubAuthorityList::from_reader` (src/security/authority.rs lines 40-48,
same reading loop as `SubAuthorityList::new` in src/security.rs): decodes
`count` sub-authorities in order. -/
def SubAuthorityList.from_reader (count : Nat) (bs : List Nat) :
    Option (List Nat × List Nat) :=
  match count with
  | 0 => some ([], bs)
  | n + 1 => do
      let (v, bs) ← SubAuthority.from_reader bs
      let (rest, bs) ← SubAuthorityList.from_reader n bs
      some (v :: rest, bs)

/-- `impl fmt::Display for SubAuthorityList` (src/security/authority.rs lines
51-59): writes `-{element}` for every element, in order. -/
def SubAuthorityList.display (l : List Nat) : String :=
  l.foldl (fun acc v => acc ++ "-" ++ toString v) ""

/-- `Sid` (src/security/sid.rs lines 11-17). -/
structure Sid where
  revision_number : Nat
  sub_authority_count : Nat
  authority : Nat
  sub_authorities : List Nat
deriving DecidableEq

/-- The sub-authority buffer length `(sub_authority_count * 4) as usize` of
`Sid::new` (src/security/sid.rs line 27): `sub_authority_count` is `u8`, so
the multiplication is performed in 8-bit arithmetic (wrapping in release
builds, a panic in overflow-checked builds) before the cast widens it. -/
def Sid.subAuthorityBufLen (c : Nat) : Nat := c * 4 % 256

/-- `Sid::new` (src/security/sid.rs lines 19-37): revision byte, count byte,
six authority bytes handed to `Authority::new`, then a sub-authority buffer
of `subAuthorityBufLen count` bytes handed to `SubAuthorityList`. -/
def Sid.new (bs : List Nat) : Option (Sid × List Nat) := do
  let (revision_number, bs) ← readU8 bs
  let (sub_authority_count, bs) ← readU8 bs
  let (buf_a, bs) ← readExact 6 bs
  let authority ← Authority.new buf_a
  let (buf_sa, bs) ← readExact (Sid.subAuthorityBufLen sub_authority_count) bs
  let (sub_authorities, _) ←
    SubAuthorityList.from_reader sub_authority_count buf_sa
  some ({ revision_number := revision_number,
          sub_authority_count := sub_authority_count,
          authority := authority,
          sub_authorities := sub_authorities }, bs)

/-- `Sid::to_string` (src/security/sid.rs lines 39-46):
`format!("S-{}-{}-{}", revision, authority, sub_authorities.to_string())`,
where the third argument renders through `SubAuthorityList`'s `Display`. -/
def Sid.to_string (s : Sid) : String :=
  "S-" ++ toString s.revision_number ++ "-" ++ toString s.authority ++ "-" ++
    SubAuthorityList.display s.sub_authorities

/-- `Error` (src/err.rs lines 8-17): the crate's decode error type — an I/O
error or an unknown ACE type carrying the offending byte.  No other variant
exists. -/
inductive Error where
  | IoError : Error
  | UnknownAceType : Nat → Error
deriving DecidableEq

/-- Lifts a reader result into the crate's `Result`: every read failure
(short read) becomes `Error::IoError` via the `From<io::Error>` impl. -/
def orIoError {α : Type} : Option α → Except Error α
  | some a => Except.ok a
  | none => Except.error Error.IoError

theorem orIoError_eq_ok {α : Type} {x : Option α} {v : α} :
    orIoError x = Except.ok v ↔ x = some v := by
  cases x <;> simp [orIoError]

theorem ebind_eq_ok {α β : Type} {x : Except Error α} {f : α → Except Error β}
    {b : β} : (x >>= f) = Except.ok b ↔ ∃ a, x = Except.ok a ∧ f a = Except.ok b := by
  cases x <;> simp [Bind.bind, Except.bind]

/-- `AceType` (src/security/ace.rs lines 59-78): the 18 known ACE type
codes 0x00–0x11. -/
inductive AceType where
  | AccessAllowed
  | AccessDenied
  | SystemAudit
  | SystemAlarm
  | AccessAllowedCompound
  | AccessAllowedObject
  | AccessDeniedObject
  | SystemAuditObject
  | SystemAlarmObject
  | AccessAllowedCallback
  | AccessDeniedCallback
  | AccessAllowedCallbackObject
  | AccessDeniedCallbackObject
  | SystemAuditCallback
  | SystemAlarmCallback
  | SystemAuditCallbackObject
  | SystemAlarmCallbackObject
  | SystemMandatoryLabel
deriving DecidableEq

/-- `AceType::from_u8` (the derived `FromPrimitive` used at
src/security/ace.rs line 28): byte values 0x00–0x11 map to the matching
variant, every other byte to `None`. -/
def AceType.from_u8 (b : Nat) : Option AceType :=
  if b = 0x00 then some .AccessAllowed
  else if b = 0x01 then some .AccessDenied
  else if b = 0x02 then some .SystemAudit
  else if b = 0x03 then some .SystemAlarm
  else if b = 0x04 then some .AccessAllowedCompound
  else if b = 0x05 then some .AccessAllowedObject
  else if b = 0x06 then some .AccessDeniedObject
  else if b = 0x07 then some .SystemAuditObject
  else if b = 0x08 then some .SystemAlarmObject
  else if b = 0x09 then some .AccessAllowedCallback
  else if b = 0x0a then some .AccessDeniedCallback
  else if b = 0x0b then some .AccessAllowedCallbackObject
  else if b = 0x0c then some .AccessDeniedCallbackObject
  else if b = 0x0d then some .SystemAuditCallback
  else if b = 0x0e then some .SystemAlarmCallback
  else if b = 0x0f then some .SystemAuditCallbackObject
  else if b = 0x10 then some .SystemAlarmCallbackObject
  else if b = 0x11 then some .SystemMandatoryLabel
  else none

/-- `AceType::is_basic` (src/security/ace.rs lines 81-94). -/
def AceType.is_basic : AceType → Bool
  | .AccessAllowed | .AccessDenied | .SystemAudit | .SystemAlarm
  | .AccessAllowedCallback | .AccessDeniedCallback
  | .SystemAuditCallback | .SystemAlarmCallback
  | .SystemMandatoryLabel => true
  | _ => false

/-- `AceType::is_object` (src/security/ace.rs lines 96-108). -/
def AceType.is_object : AceType → Bool
  | .AccessAllowedObject | .AccessDeniedObject
  | .SystemAuditObject | .SystemAlarmObject
  | .AccessAllowedCallbackObject | .AccessDeniedCallbackObject
  | .SystemAuditCallbackObject | .SystemAlarmCallbackObject => true
  | _ => false

/-- `AceBasic` (src/security/ace.rs lines 120-123). -/
structure AceBasic where
  access_rights : Nat
  sid : Sid
deriving DecidableEq

/-- `AceBasic::from_reader` (src/security/ace.rs lines 126-131): u32 LE
access-rights mask then a trailing `Sid`. -/
def AceBasic.from_reader (bs : List Nat) : Option (AceBasic × List Nat) := do
  let (access_rights, bs) ← readU32LE bs
  let (sid, bs) ← Sid.new bs
  some ({ access_rights := access_rights, sid := sid }, bs)

/-- `AceObject` (src/security/ace.rs lines 135-141); `flags` holds the value
of `AceObjectFlags::from_bits_truncate`, i.e. the raw u32 masked to the two
defined bits. -/
structure AceObject where
  access_rights : Nat
  flags : Nat
  object_type : Option Guid
  inherited_type : Option Guid
  sid : Sid
deriving DecidableEq

/-- One flag-gated GUID read of `AceObject::from_reader`
(src/security/ace.rs lines 147-154): when the flag bit is set a `Guid` is
consumed and wrapped in `Some`, otherwise the field stays `None` and the
stream is untouched. -/
def readGuidWhen (present : Bool) (bs : List Nat) :
    Option (Option Guid × List Nat) :=
  if present then
    (Guid.from_reader bs).map (fun p => ((some p.1 : Option Guid), p.2))
  else some ((none : Option Guid), bs)

/-- `AceObject::from_reader` (src/security/ace.rs lines 144-165): u32 LE
access rights, u32 LE object flags truncated to mask 0x3, a GUID when bit
0x1 (`ACE_OBJECT_TYPE_PRESENT`) is set, a further GUID when bit 0x2
(`ACE_INHERITED_OBJECT_TYPE_PRESENT`) is set, then a trailing `Sid`. -/
def AceObject.from_reader (bs : List Nat) : Option (AceObject × List Nat) := do
  let (access_rights, bs) ← readU32LE bs
  let (rawFlags, bs) ← readU32LE bs
  let flags := rawFlags &&& 3
  let (object_type, bs) ← readGuidWhen (flags &&& 1 == 1) bs
  let (inherited_type, bs) ← readGuidWhen (flags &&& 2 == 2) bs
  let (sid, bs) ← Sid.new bs
  some ({ access_rights := access_rights, flags := flags,
          object_type := object_type, inherited_type := inherited_type,
          sid := sid }, bs)

/-- `AceData` (src/security/ace.rs lines 113-117). -/
inductive AceData where
  | Basic : AceBasic → AceData
  | Object : AceObject → AceData
  | Unhandled : List Nat → AceData
deriving DecidableEq

/-- `Ace` (src/security/ace.rs lines 17-23); `ace_flags` holds
`AceFlags::from_bits_truncate`, i.e. the flag byte masked to 0x0F. -/
structure Ace where
  ace_type : AceType
  ace_flags : Nat
  size : Nat
  data : AceData
deriving DecidableEq

/-- Payload dispatch of `Ace::from_reader` (src/security/ace.rs lines 39-45):
basic and object types decode the payload buffer; every other (known) type
stores the raw payload unmodified. -/
def Ace.decodeData (t : AceType) (buf : List Nat) : Except Error AceData :=
  if t.is_basic then
    match AceBasic.from_reader buf with
    | some p => Except.ok (AceData.Basic p.1)
    | none => Except.error Error.IoError
  else if t.is_object then
    match AceObject.from_reader buf with
    | some p => Except.ok (AceData.Object p.1)
    | none => Except.error Error.IoError
  else Except.ok (AceData.Unhandled buf)

/-- `Ace::from_reader` (src/security/ace.rs lines 26-53): type byte (unknown
bytes are the typed `UnknownAceType` failure), flag byte truncated to the
known bits, u16 LE size, then a payload buffer of `(size - 4) as usize`
bytes — the subtraction is u16 arithmetic, so `size < 4` wraps modulo 2^16
(and panics in overflow-checked builds); there is no `size >= 4` guard. -/
def Ace.from_reader (bs : List Nat) : Except Error (Ace × List Nat) := do
  let (tyByte, bs) ← orIoError (readU8 bs)
  match AceType.from_u8 tyByte with
  | none => Except.error (Error.UnknownAceType tyByte)
  | some ace_type => do
    let (flagByte, bs) ← orIoError (readU8 bs)
    let ace_flags := flagByte &&& 15
    let (size, bs) ← orIoError (readU16LE bs)
    let (data_buffer, bs) ← orIoError (readExact ((size + 65536 - 4) % 65536) bs)
    let data ← Ace.decodeData ace_type data_buffer
    Except.ok ({ ace_type := ace_type, ace_flags := ace_flags,
                 size := size, data := data }, bs)

/-- `Acl` (src/security/acl.rs lines 12-22). -/
structure Acl where
  revision : Nat
  padding1 : Nat
  size : Nat
  count : Nat
  padding2 : Nat
  entries : List Ace
deriving DecidableEq

/-- The entry loop of `Acl::from_reader` (src/security/acl.rs lines 33-36):
decodes exactly `count` ACEs in order, failing fast on the first error. -/
def Acl.readEntries : Nat → List Nat → Except Error (List Ace × List Nat)
  | 0, bs => Except.ok ([], bs)
  | n + 1, bs => do
      let (ace, bs) ← Ace.from_reader bs
      let (rest, bs) ← Acl.readEntries n bs
      Except.ok (ace :: rest, bs)

/-- `Acl::from_reader` (src/security/acl.rs lines 25-47): revision byte,
padding byte, u16 LE size, u16 LE count, u16 LE padding, then exactly
`count` ACEs.  The declared `size` is stored but never validated. -/
def Acl.from_reader (bs : List Nat) : Except Error (Acl × List Nat) := do
  let (revision, bs) ← orIoError (readU8 bs)
  let (padding1, bs) ← orIoError (readU8 bs)
  let (size, bs) ← orIoError (readU16LE bs)
  let (count, bs) ← orIoError (readU16LE bs)
  let (padding2, bs) ← orIoError (readU16LE bs)
  let (entries, bs) ← Acl.readEntries count bs
  Except.ok ({ revision := revision, padding1 := padding1, size := size,
               count := count, padding2 := padding2, entries := entries }, bs)

/-- Little-endian u16 at index `i` of a buffer (`LittleEndian::read_u16`
on `&buffer[i..i+2]`). -/
def u16leAt (buffer : List Nat) (i : Nat) : Nat :=
  buffer.getD i 0 + 256 * buffer.getD (i + 1) 0

/-- Little-endian u32 at index `i` of a buffer (`LittleEndian::read_u32`
on `&buffer[i..i+4]`). -/
def u32leAt (buffer : List Nat) (i : Nat) : Nat :=
  buffer.getD i 0 + 256 * buffer.getD (i + 1) 0 +
    65536 * buffer.getD (i + 2) 0 + 16777216 * buffer.getD (i + 3) 0

/-- `SdControlFlags::from_bits_truncate` (src/security/sec_desc.rs lines
84-100): the u16 masked to the thirteen defined bits
0x0001|0x0002|0x0004|0x0008|0x0010|0x0020|0x0100|0x0200|0x0400|0x0800|
0x2000|0x4000|0x8000 = 0xEF3F. -/
def SdControlFlags.from_bits_truncate (v : Nat) : Nat := v &&& 0xEF3F

/-- `SecDescHeader` (src/security/sec_desc.rs lines 117-131). -/
structure SecDescHeader where
  revision_number : Nat
  padding1 : Nat
  control_flags : Nat
  owner_sid_offset : Nat
  group_sid_offset : Nat
  sacl_offset : Nat
  dacl_offset : Nat
deriving DecidableEq

/-- `SecDescHeader::new` (src/security/sec_desc.rs lines 132-158): indexes a
byte buffer at fixed offsets — revision at 0, padding at 1, control flags LE
u16 at 2..4, owner offset at 4..8, group offset at 8..12, SACL offset at
12..16 and DACL offset at 16..20.  Indexing a buffer shorter than 20 bytes
panics in Rust, modelled as `none`. -/
def SecDescHeader.new (buffer : List Nat) : Option SecDescHeader :=
  if 20 ≤ buffer.length then
    some { revision_number := buffer.getD 0 0
         , padding1 := buffer.getD 1 0
         , control_flags := SdControlFlags.from_bits_truncate (u16leAt buffer 2)
         , owner_sid_offset := u32leAt buffer 4
         , group_sid_offset := u32leAt buffer 8
         , sacl_offset := u32leAt buffer 12
         , dacl_offset := u32leAt buffer 16 }
  else none

/-- `SecurityDescriptor` (src/security/sec_desc.rs lines 30-38). -/
structure SecurityDescriptor where
  header : SecDescHeader
  owner_sid : Sid
  group_sid : Sid
  dacl : Option Acl
  sacl : Option Acl
deriving DecidableEq

/-- One optional ACL step of `SecurityDescriptor::new`
(src/security/sec_desc.rs lines 54-70): when the offset is nonzero, seek to
`base + off` and decode an `Acl`; a zero offset yields `None` without
touching the stream. -/
def readAclWhen (off : Nat) (data : List Nat) (base : Nat) :
    Option (Option Acl) :=
  if 0 < off then
    (Acl.from_reader (data.drop (base + off))).toOption.map
      (fun p => (some p.1 : Option Acl))
  else some (none : Option Acl)

/-- `SecurityDescriptor::new` (src/security/sec_desc.rs lines 41-79) over a
stream `data` whose cursor stands at `base` (the `tell()` at entry): reads a
20-byte header buffer, then seeks to `base + offset` for the owner SID, the
group SID, and — only when the respective offset is nonzero — the DACL and
the SACL. -/
def SecurityDescriptor.new (data : List Nat) (base : Nat) :
    Option SecurityDescriptor := do
  let (header_buff, _) ← readExact 20 (data.drop base)
  let header ← SecDescHeader.new header_buff
  let owner_sid ←
    (Sid.new (data.drop (base + header.owner_sid_offset))).map Prod.fst
  let group_sid ←
    (Sid.new (data.drop (base + header.group_sid_offset))).map Prod.fst
  let dacl ← readAclWhen header.dacl_offset data base
  let sacl ← readAclWhen header.sacl_offset data base
  some { header := header, owner_sid := owner_sid, group_sid := group_sid,
         dacl := dacl, sacl := sacl }

theorem AceType.from_u8_ge18 {b : Nat} (h : 18 ≤ b) : AceType.from_u8 b = none := by
  unfold AceType.from_u8
  rw [if_neg (show ¬b = 0x00 by omega), if_neg (show ¬b = 0x01 by omega),
    if_neg (show ¬b = 0x02 by omega), if_neg (show ¬b = 0x03 by omega),
    if_neg (show ¬b = 0x04 by omega), if_neg (show ¬b = 0x05 by omega),
    if_neg (show ¬b = 0x06 by omega), if_neg (show ¬b = 0x07 by omega),
    if_neg (show ¬b = 0x08 by omega), if_neg (show ¬b = 0x09 by omega),
    if_neg (show ¬b = 0x0a by omega), if_neg (show ¬b = 0x0b by omega),
    if_neg (show ¬b = 0x0c by omega), if_neg (show ¬b = 0x0d by omega),
    if_neg (show ¬b = 0x0e by omega), if_neg (show ¬b = 0x0f by omega),
    if_neg (show ¬b = 0x10 by omega), if_neg (show ¬b = 0x11 by omega)]

/-- Claim C1: on an input whose first byte is the known ACE type 0x00 and
whose declared size is 3 (< 4), `Ace::from_reader` does not return a typed
structural-precondition failure: the u16 subtraction `size - 4` wraps to
65535 (a panic in overflow-checked builds), the resulting 65535-byte payload
read fails, and the error produced is the generic `IoError` — indeed the
crate's `Error` type has no structural-precondition variant at all, only
`IoError` and `UnknownAceType`. -/
theorem c1_ace_size_underflow_is_io_error :
    Ace.from_reader [0, 0, 3, 0] = Except.error Error.IoError ∧
    (3 + 65536 - 4) % 65536 = 65535 ∧
    (∀ e : Error, e = Error.IoError ∨ ∃ b, e = Error.UnknownAceType b) := by
  refine ⟨rfl, rfl, fun e => ?_⟩
  cases e with
  | IoError => exact Or.inl rfl
  | UnknownAceType b => exact Or.inr ⟨b, rfl⟩

/-- Claim C2: `Authority::from_reader` consumes exactly 6 bytes and maps the
test vector 00 00 00 00 00 05 to 5, but it does not interpret its input as a
big-endian 48-bit integer: on 00 00 00 01 00 00 it returns
`(id_high as u16) ^ id_low = 1`, while the big-endian value (computed
correctly by the older `Authority::new` of src/security.rs) is
1 * 256 ^ 2 = 65536. -/
theorem c2_authority_from_reader_xor_mismatch :
    Authority.from_reader [0, 0, 0, 0, 0, 5] = some (5, []) ∧
    Authority.from_reader [0, 0, 0, 1, 0, 0] = some (1, []) ∧
    Authority.new [0, 0, 0, 1, 0, 0] = some 65536 ∧
    (0 * 256 ^ 5 + 0 * 256 ^ 4 + 0 * 256 ^ 3 + 1 * 256 ^ 2 + 0 * 256 ^ 1 +
        0 * 256 ^ 0 : Nat) = 65536 ∧
    (1 : Nat) ≠ 65536 := by
  refine ⟨rfl, rfl, rfl, by norm_num, by decide⟩

/-- Claim C4: the byte sequence 01 01 00 00 00 00 00 05 12 00 00 00 is
accepted by `Sid::new`, but `Sid::to_string` renders it as "S-1-5--18" — the
`format!("S-{}-{}-{}", ..)` string contributes one dash and the
`SubAuthorityList` `Display` impl prefixes every element with another — not
as the canonical "S-1-5-18" asserted by the crate's own `test_parses_sid`. -/
theorem c4_sid_to_string_double_dash :
    Sid.new [1, 1, 0, 0, 0, 0, 0, 5, 18, 0, 0, 0] =
      some ({ revision_number := 1, sub_authority_count := 1, authority := 5,
              sub_authorities := [18] }, []) ∧
    Sid.to_string { revision_number := 1, sub_authority_count := 1,
                    authority := 5, sub_authorities := [18] } = "S-1-5--18" ∧
    "S-1-5--18" ≠ "S-1-5-18" := by
  refine ⟨by decide, by decide, by decide⟩

/-- Claim C8: `SecDescHeader::new` on the documented test vector reads the
fields at the layout's offsets — revision 1 at byte 0, padding 0 at byte 1,
control flags 0x9804 at bytes 2..4 truncated to the defined bits 0x8804,
owner offset 152 at bytes 4..8, group offset 164 at bytes 8..12, then the
SACL offset (0) at bytes 12..16 before the DACL offset (20) at bytes
16..20. -/
theorem c8_sec_desc_header_vector :
    SecDescHeader.new
        [0x01, 0x00, 0x04, 0x98, 0x98, 0x00, 0x00, 0x00, 0xA4, 0x00, 0x00,
         0x00, 0x00, 0x00, 0x00, 0x00, 0x14, 0x00, 0x00, 0x00, 0x02, 0x00] =
      some { revision_number := 1, padding1 := 0, control_flags := 0x8804,
             owner_sid_offset := 152, group_sid_offset := 164,
             sacl_offset := 0, dacl_offset := 20 } ∧
    SdControlFlags.from_bits_truncate 0x9804 = 0x8804 := by
  refine ⟨by decide, by decide⟩

/-- Claim C3: for every stream whose first byte is 18 or more (outside the
known ACE type codes 0x00–0x11), `Ace::from_reader` fails immediately with
`UnknownAceType` carrying that byte, whatever follows; no `Ace` value (and
in particular no `Unhandled` payload) is returned. -/
theorem c3_unknown_ace_type_fails (bs : List Nat) (b : Nat)
    (h1 : 18 ≤ b) (h2 : b < 256) :
    Ace.from_reader (b :: bs) = Except.error (Error.UnknownAceType b) := by
  have hnone := AceType.from_u8_ge18 h1
  unfold Ace.from_reader
  simp [readU8, orIoError, hnone, Bind.bind, Except.bind]

/-- Witness for claim C3 at the spec's example: type byte 0xFF fails with
the unknown-type error carrying 255. -/
theorem c3_unknown_ace_type_witness :
    Ace.from_reader [255] = Except.error (Error.UnknownAceType 255) :=
  c3_unknown_ace_type_fails [] 255 (by omega) (by omega)

theorem SubAuthorityList.from_reader_length :
    ∀ (c : Nat) (bs l r : List Nat),
      SubAuthorityList.from_reader c bs = some (l, r) → l.length = c := by
  intro c
  induction c with
  | zero =>
      intro bs l r h
      simp only [SubAuthorityList.from_reader, Option.some.injEq, Prod.mk.injEq] at h
      simp [← h.1]
  | succ n ih =>
      intro bs l r h
      simp only [SubAuthorityList.from_reader, obind_eq_some] at h
      obtain ⟨⟨v, bs1⟩, h1, h⟩ := h
      obtain ⟨⟨rest, bs2⟩, h2, h⟩ := h
      simp only [Option.some.injEq, Prod.mk.injEq] at h
      obtain ⟨h3, h4⟩ := h
      subst h3
      simp [ih bs1 rest bs2 h2]

theorem SubAuthorityList.from_reader_exact :
    ∀ (c : Nat) (bs : List Nat), bs.length = 4 * c →
      ∃ l, SubAuthorityList.from_reader c bs = some (l, []) := by
  intro c
  induction c with
  | zero =>
      intro bs hlen
      have hnil : bs = [] := List.eq_nil_of_length_eq_zero (by omega)
      exact ⟨[], by simp [hnil, SubAuthorityList.from_reader]⟩
  | succ n ih =>
      intro bs hlen
      rcases bs with _ | ⟨b0, _ | ⟨b1, _ | ⟨b2, _ | ⟨b3, rest⟩⟩⟩⟩
      · simp only [List.length_nil] at hlen; omega
      · simp only [List.length_cons, List.length_nil] at hlen; omega
      · simp only [List.length_cons, List.length_nil] at hlen; omega
      · simp only [List.length_cons, List.length_nil] at hlen; omega
      · have hrest : rest.length = 4 * n := by
          simp only [List.length_cons] at hlen; omega
        obtain ⟨l, hl⟩ := ih rest hrest
        refine ⟨(b0 + 256 * b1 + 65536 * b2 + 16777216 * b3) :: l, ?_⟩
        simp [SubAuthorityList.from_reader, SubAuthority.from_reader, readU32LE,
          Option.bind, hl]

theorem SubAuthorityList.from_reader_short :
    ∀ (c : Nat) (bs : List Nat), bs.length < 4 * c →
      SubAuthorityList.from_reader c bs = none := by
  intro c
  induction c with
  | zero => intro bs h; omega
  | succ n ih =>
      intro bs hlen
      rcases bs with _ | ⟨b0, _ | ⟨b1, _ | ⟨b2, _ | ⟨b3, rest⟩⟩⟩⟩
      · simp [SubAuthorityList.from_reader, SubAuthority.from_reader, readU32LE,
          Option.bind]
      · simp [SubAuthorityList.from_reader, SubAuthority.from_reader, readU32LE,
          Option.bind]
      · simp [SubAuthorityList.from_reader, SubAuthority.from_reader, readU32LE,
          Option.bind]
      · simp [SubAuthorityList.from_reader, SubAuthority.from_reader, readU32LE,
          Option.bind]
      · have hrest : rest.length < 4 * n := by
          simp only [List.length_cons] at hlen; omega
        simp [SubAuthorityList.from_reader, SubAuthority.from_reader, readU32LE,
          Option.bind, ih rest hrest]

/-- Claim C9: the sub-authority buffer length of `Sid::new` is
`sub_authority_count * 4` computed in 8-bit arithmetic before widening.  For
every count up to 63 decoding a well-formed stream consumes exactly
8 + 4*count bytes (2 header bytes, 6 authority bytes, 4*count sub-authority
bytes) and yields a sub-authority list of length count; for every count of 64
or more the computed length wraps modulo 256, differs from 4*count (a panic
in overflow-checked builds), and the decode fails. -/
theorem c9_sid_u8_buffer_arithmetic :
    (∀ rev c auth6 subs extra, c ≤ 63 → auth6.length = 6 →
      subs.length = 4 * c →
      ∃ l, SubAuthorityList.from_reader c subs = some (l, []) ∧ l.length = c ∧
        Sid.new (rev :: c :: (auth6 ++ (subs ++ extra))) =
          some ({ revision_number := rev, sub_authority_count := c,
                  authority := beBytes ([0, 0] ++ auth6),
                  sub_authorities := l }, extra)) ∧
    (∀ c, c ≤ 63 → Sid.subAuthorityBufLen c = 4 * c) ∧
    (∀ c, 64 ≤ c → c ≤ 255 → Sid.subAuthorityBufLen c ≠ 4 * c) ∧
    (∀ rev c bs, 64 ≤ c → c ≤ 255 → Sid.new (rev :: c :: bs) = none) ∧
    Sid.new [1, 2, 0, 0, 0, 0, 0, 5, 1, 0, 0, 0, 2, 0, 0, 0, 9] =
      some ({ revision_number := 1, sub_authority_count := 2, authority := 5,
              sub_authorities := [1, 2] }, [9]) := by
  refine ⟨?_, ?_, ?_, ?_, by decide⟩
  · intro rev c auth6 subs extra hc h6 hsub
    obtain ⟨l, hl⟩ := SubAuthorityList.from_reader_exact c subs hsub
    have hlen := SubAuthorityList.from_reader_length c subs l [] hl
    refine ⟨l, hl, hlen, ?_⟩
    have hE1 : readExact 6 (auth6 ++ (subs ++ extra)) =
        some (auth6, subs ++ extra) := by
      unfold readExact
      rw [if_pos (by simp [List.length_append]; omega)]
      rw [List.take_append_of_le_length (by omega : 6 ≤ auth6.length),
        List.drop_append_of_le_length (by omega : 6 ≤ auth6.length)]
      rw [← h6]
      simp
    have hAuth : Authority.new auth6 = some (beBytes ([0, 0] ++ auth6)) := by
      unfold Authority.new
      rw [if_pos (by omega)]
      have : auth6.take 6 = auth6 := by rw [← h6]; simp
      rw [this]
    have hBufLen : Sid.subAuthorityBufLen c = 4 * c := by
      unfold Sid.subAuthorityBufLen; omega
    have hE2 : readExact (4 * c) (subs ++ extra) = some (subs, extra) := by
      unfold readExact
      rw [if_pos (by simp [List.length_append]; omega)]
      rw [List.take_append_of_le_length (by omega : 4 * c ≤ subs.length),
        List.drop_append_of_le_length (by omega : 4 * c ≤ subs.length)]
      rw [← hsub]
      simp
    simp [Sid.new, readU8, Option.bind, hE1, hAuth, hBufLen, hE2, hl]
  · intro c hc
    unfold Sid.subAuthorityBufLen
    omega
  · intro c h64 h255
    unfold Sid.subAuthorityBufLen
    omega
  · intro rev c bs h64 h255
    simp only [Sid.new, readU8, Option.bind]
    cases hE : readExact 6 bs with
    | none => simp [hE]
    | some p =>
      obtain ⟨buf, rest⟩ := p
      obtain ⟨hbuf, hrest, hle⟩ := readExact_drop hE
      have hAuth : Authority.new buf = some (beBytes ([0, 0] ++ buf.take 6)) := by
        unfold Authority.new
        rw [if_pos (by subst hbuf; simp [List.length_take]; omega)]
      cases hE2 : readExact (Sid.subAuthorityBufLen c) rest with
      | none => simp [hE, hAuth, hE2]
      | some q =>
        obtain ⟨buf2, rest2⟩ := q
        obtain ⟨hbuf2, hrest2, hle2⟩ := readExact_drop hE2
        have hb2 : buf2.length = Sid.subAuthorityBufLen c := by
          subst hbuf2
          simp [List.length_take]
          omega
        have hshort : buf2.length < 4 * c := by
          unfold Sid.subAuthorityBufLen at hb2
          omega
        simp [hE, hAuth, hE2, SubAuthorityList.from_reader_short c buf2 hshort]

theorem aceFromReaderExtend {bs e r : List Nat} {a : Ace}
    (h : Ace.from_reader bs = Except.ok (a, r)) :
    Ace.from_reader (bs ++ e) = Except.ok (a, r ++ e) := by
  unfold Ace.from_reader at h ⊢
  simp only [ebind_eq_ok] at h
  obtain ⟨⟨tyByte, bs1⟩, h1, h⟩ := h
  rw [orIoError_eq_ok] at h1
  rw [readU8_extend h1]
  cases hty : AceType.from_u8 tyByte with
  | none => rw [hty] at h; simp at h
  | some t =>
    rw [hty] at h
    simp only [ebind_eq_ok] at h
    obtain ⟨⟨flagByte, bs2⟩, h2, h⟩ := h
    obtain ⟨⟨size, bs3⟩, h3, h⟩ := h
    obtain ⟨⟨buf, bs4⟩, h4, h⟩ := h
    obtain ⟨data, h5, h⟩ := h
    rw [orIoError_eq_ok] at h2 h3 h4
    simp only [orIoError, Bind.bind, Except.bind, hty, readU8_extend h2,
      readU16LE_extend h3, readExact_extend h4, h5, Except.ok.injEq,
      Prod.mk.injEq]
    simp only [Except.ok.injEq, Prod.mk.injEq] at h
    exact ⟨h.1, by rw [h.2]⟩

theorem Acl.readEntries_length :
    ∀ (n : Nat) (bs : List Nat) (l : List Ace) (r : List Nat),
      Acl.readEntries n bs = Except.ok (l, r) → l.length = n := by
  intro n
  induction n with
  | zero =>
      intro bs l r h
      simp only [Acl.readEntries, Except.ok.injEq, Prod.mk.injEq] at h
      simp [← h.1]
  | succ n ih =>
      intro bs l r h
      simp only [Acl.readEntries, ebind_eq_ok] at h
      obtain ⟨⟨ace, bs1⟩, h1, h⟩ := h
      obtain ⟨⟨rest, bs2⟩, h2, h⟩ := h
      simp only [Except.ok.injEq, Prod.mk.injEq] at h
      obtain ⟨h3, h4⟩ := h
      subst h3
      simp [ih bs1 rest bs2 h2]

theorem Acl.readEntries_extend :
    ∀ (n : Nat) (bs e : List Nat) (l : List Ace) (r : List Nat),
      Acl.readEntries n bs = Except.ok (l, r) →
      Acl.readEntries n (bs ++ e) = Except.ok (l, r ++ e) := by
  intro n
  induction n with
  | zero =>
      intro bs e l r h
      simp only [Acl.readEntries, Except.ok.injEq, Prod.mk.injEq] at h ⊢
      exact ⟨h.1, by rw [← h.2]⟩
  | succ n ih =>
      intro bs e l r h
      simp only [Acl.readEntries, ebind_eq_ok] at h ⊢
      obtain ⟨⟨ace, bs1⟩, h1, h⟩ := h
      obtain ⟨⟨rest, bs2⟩, h2, h⟩ := h
      exact ⟨(ace, bs1 ++ e), aceFromReaderExtend h1,
        (rest, bs2 ++ e), ih bs1 e rest bs2 h2, by
          simp only [Except.ok.injEq, Prod.mk.injEq] at h ⊢
          exact ⟨h.1, by rw [h.2]⟩⟩

/-- Claim C7: a successful `Acl::from_reader` returns exactly `count`
entries (the decoded 2-byte count field), and the decode consumes only those
`count` ACEs: appending arbitrary extra bytes to the stream leaves the
decoded value unchanged and the extra bytes unread — the declared `size`
field is never cross-validated against bytes consumed. -/
theorem c7_acl_entry_count (bs : List Nat) (acl : Acl) (rest : List Nat)
    (h : Acl.from_reader bs = Except.ok (acl, rest)) :
    acl.entries.length = acl.count ∧
    (∀ extra, Acl.from_reader (bs ++ extra) = Except.ok (acl, rest ++ extra)) := by
  unfold Acl.from_reader at h
  simp only [ebind_eq_ok] at h
  obtain ⟨⟨rev, bs1⟩, h1, h⟩ := h
  obtain ⟨⟨pad1, bs2⟩, h2, h⟩ := h
  obtain ⟨⟨size, bs3⟩, h3, h⟩ := h
  obtain ⟨⟨count, bs4⟩, h4, h⟩ := h
  obtain ⟨⟨pad2, bs5⟩, h5, h⟩ := h
  obtain ⟨⟨entries, bs6⟩, h6, h⟩ := h
  rw [orIoError_eq_ok] at h1 h2 h3 h4 h5
  simp only [Except.ok.injEq, Prod.mk.injEq] at h
  obtain ⟨hacl, hrest⟩ := h
  constructor
  · rw [← hacl]
    exact Acl.readEntries_length count bs5 entries bs6 h6
  · intro extra
    unfold Acl.from_reader
    simp only [orIoError, Bind.bind, Except.bind, readU8_extend h1,
      readU8_extend h2, readU16LE_extend h3, readU16LE_extend h4,
      readU16LE_extend h5,
      Acl.readEntries_extend count bs5 extra entries bs6 h6,
      Except.ok.injEq, Prod.mk.injEq]
    exact ⟨hacl, by rw [hrest]⟩

theorem Sid.new_extend {bs e r : List Nat} {s : Sid}
    (h : Sid.new bs = some (s, r)) : Sid.new (bs ++ e) = some (s, r ++ e) := by
  unfold Sid.new at h ⊢
  simp only [obind_eq_some] at h
  obtain ⟨⟨rev, bs1⟩, h1, h⟩ := h
  obtain ⟨⟨cnt, bs2⟩, h2, h⟩ := h
  obtain ⟨⟨bufA, bs3⟩, h3, h⟩ := h
  obtain ⟨auth, h4, h⟩ := h
  obtain ⟨⟨bufSa, bs4⟩, h5, h⟩ := h
  obtain ⟨⟨subs, rest2⟩, h6, h⟩ := h
  simp only [Bind.bind, Option.bind, readU8_extend h1, readU8_extend h2,
    readExact_extend h3, h4, readExact_extend h5, h6, Option.some.injEq,
    Prod.mk.injEq] at h ⊢
  exact ⟨h.1, by rw [h.2]⟩

theorem aceBasicFromReaderExtend {bs e r : List Nat} {v : AceBasic}
    (h : AceBasic.from_reader bs = some (v, r)) :
    AceBasic.from_reader (bs ++ e) = some (v, r ++ e) := by
  unfold AceBasic.from_reader at h ⊢
  simp only [obind_eq_some] at h
  obtain ⟨⟨ar, bs1⟩, h1, h⟩ := h
  obtain ⟨⟨sid, bs2⟩, h2, h⟩ := h
  simp only [Bind.bind, Option.bind, readU32LE_extend h1, Sid.new_extend h2,
    Option.some.injEq, Prod.mk.injEq] at h ⊢
  exact ⟨h.1, by rw [h.2]⟩

/-- Claim C10: a basic-classified ACE whose `size - 4` payload is longer
than the access-rights mask plus the embedded SID still decodes
successfully; the excess payload bytes are discarded without leaving any
trace in the decoded `Ace`, and the stream after the ACE is untouched. -/
theorem c10_basic_ace_trailing_bytes_discarded
    (ty fl s0 s1 : Nat) (core extra rest : List Nat) (v : AceBasic)
    (t : AceType) (hty : AceType.from_u8 ty = some t)
    (hbasic : t.is_basic = true) (hs0 : s0 < 256) (hs1 : s1 < 256)
    (hsize : s0 + 256 * s1 = 4 + core.length + extra.length)
    (hcore : AceBasic.from_reader core = some (v, [])) :
    Ace.from_reader (ty :: fl :: s0 :: s1 :: (core ++ (extra ++ rest))) =
      Except.ok ({ ace_type := t, ace_flags := fl &&& 15,
                   size := s0 + 256 * s1, data := AceData.Basic v }, rest) := by
  have hext : AceBasic.from_reader (core ++ extra) = some (v, [] ++ extra) :=
    aceBasicFromReaderExtend hcore
  have hlen : (s0 + 256 * s1 + 65536 - 4) % 65536 =
      core.length + extra.length := by omega
  have hE : readExact (core.length + extra.length) (core ++ (extra ++ rest)) =
      some (core ++ extra, rest) := by
    unfold readExact
    rw [if_pos (by simp only [List.length_append]; omega)]
    rw [← List.append_assoc]
    rw [show core.length + extra.length = (core ++ extra).length by
      simp [List.length_append]]
    rw [List.take_left, List.drop_left]
  unfold Ace.from_reader
  simp only [readU8, orIoError, Bind.bind, Except.bind, hty, readU16LE]
  rw [hlen, hE]
  simp only [Ace.decodeData, hbasic, if_pos, hext, List.nil_append,
    Bind.bind, Except.bind]

theorem Guid.from_reader_drop {bs r : List Nat} {g : Guid}
    (h : Guid.from_reader bs = some (g, r)) : r = bs.drop 16 := by
  unfold Guid.from_reader at h
  simp only [obind_eq_some] at h
  obtain ⟨⟨d1, bs1⟩, h1, h⟩ := h
  obtain ⟨⟨d2, bs2⟩, h2, h⟩ := h
  obtain ⟨⟨d3, bs3⟩, h3, h⟩ := h
  obtain ⟨⟨d4, bs4⟩, h4, h⟩ := h
  simp only [Option.some.injEq, Prod.mk.injEq] at h
  obtain ⟨hd4, hr⟩ := readExact_drop h4
  have e1 := readU32LE_drop h1
  have e2 := readU16LE_drop h2
  have e3 := readU16LE_drop h3
  subst e1 e2 e3
  rw [← h.2, hr.1]
  simp [List.drop_drop]


theorem readGuidWhen_true {bs r : List Nat} {og : Option Guid}
    (h : readGuidWhen true bs = some (og, r)) :
    ∃ g, Guid.from_reader bs = some (g, r) ∧ og = some g := by
  unfold readGuidWhen at h
  simp only [if_pos] at h
  obtain ⟨⟨g, gr⟩, hg, heq⟩ := Option.map_eq_some'.mp h
  simp only [Prod.mk.injEq] at heq
  exact ⟨g, by rw [hg, heq.2], heq.1.symm⟩

theorem readGuidWhen_false {bs r : List Nat} {og : Option Guid}
    (h : readGuidWhen false bs = some (og, r)) : og = none ∧ r = bs := by
  unfold readGuidWhen at h
  rw [if_neg Bool.false_ne_true] at h
  simp only [Option.some.injEq, Prod.mk.injEq] at h
  exact ⟨h.1.symm, h.2.symm⟩

/-- Claim C6: in an object-classified ACE payload the two GUID fields are
gated independently by bits 0x1 and 0x2 of the truncated object-flags word:
`object_type` is present iff bit 0x1 is set and `inherited_type` is present
iff bit 0x2 is set; the object-type GUID is read first (at payload offset 8,
right after the 4-byte access mask and 4-byte flags), the inherited-type
GUID after it (at offset 24 when both are present, at offset 8 when only bit
0x2 is set), and the trailing SID follows the GUIDs. -/
theorem c6_object_ace_guid_gating (bs : List Nat) (obj : AceObject)
    (rest : List Nat) (h : AceObject.from_reader bs = some (obj, rest)) :
    (obj.object_type.isSome ↔ obj.flags &&& 1 = 1) ∧
    (obj.inherited_type.isSome ↔ obj.flags &&& 2 = 2) ∧
    (obj.flags &&& 1 = 1 →
      (Guid.from_reader (bs.drop 8)).map (fun p => (some p.1 : Option Guid)) =
        some obj.object_type) ∧
    (obj.flags &&& 1 = 1 → obj.flags &&& 2 = 2 →
      (Guid.from_reader (bs.drop 24)).map (fun p => (some p.1 : Option Guid)) =
        some obj.inherited_type) ∧
    (¬obj.flags &&& 1 = 1 → obj.flags &&& 2 = 2 →
      (Guid.from_reader (bs.drop 8)).map (fun p => (some p.1 : Option Guid)) =
        some obj.inherited_type) ∧
    ((Sid.new (bs.drop (8 + (if obj.flags &&& 1 = 1 then 16 else 0) +
        (if obj.flags &&& 2 = 2 then 16 else 0)))).map (fun p => p.1) =
      some obj.sid) := by
  unfold AceObject.from_reader at h
  simp only [obind_eq_some] at h
  obtain ⟨⟨ar, bs1⟩, h1, h⟩ := h
  obtain ⟨⟨raw, bs2⟩, h2, h⟩ := h
  obtain ⟨⟨objTy, bs3⟩, hOT, h⟩ := h
  obtain ⟨⟨inhTy, bs4⟩, hIT, h⟩ := h
  obtain ⟨⟨sid, bs5⟩, hS, h⟩ := h
  simp only [Option.some.injEq, Prod.mk.injEq] at h
  obtain ⟨hobj, hrest⟩ := h
  have e1 := readU32LE_drop h1
  have e2 := readU32LE_drop h2
  subst e1 e2
  have hbs2 : (bs.drop 4).drop 4 = bs.drop 8 := by simp [List.drop_drop]
  rw [hbs2] at hOT
  subst hobj
  by_cases hb1 : raw &&& 3 &&& 1 = 1
  · rw [beq_iff_eq.mpr hb1] at hOT
    obtain ⟨g, hg, hgty⟩ := readGuidWhen_true hOT
    subst hgty
    have hgr : bs3 = bs.drop 24 := by
      rw [Guid.from_reader_drop hg]
      simp [List.drop_drop]
    subst hgr
    by_cases hb2 : raw &&& 3 &&& 2 = 2
    · rw [beq_iff_eq.mpr hb2] at hIT
      obtain ⟨g2, hg2, hg2ty⟩ := readGuidWhen_true hIT
      subst hg2ty
      have hgr2 : bs4 = bs.drop 40 := by
        rw [Guid.from_reader_drop hg2]
        simp [List.drop_drop]
      subst hgr2
      refine ⟨iff_of_true (by simp) hb1, iff_of_true (by simp) hb2,
        ?_, ?_, ?_, ?_⟩
      · intro _
        rw [hg]
        rfl
      · intro _ _
        rw [hg2]
        rfl
      · intro hc
        exact absurd hb1 hc
      · rw [if_pos hb1, if_pos hb2,
          show (8 : Nat) + 16 + 16 = 40 from rfl, hS]
        rfl
    · obtain ⟨hn, hr⟩ := readGuidWhen_false
        (by rw [← beq_eq_false_iff_ne.mpr hb2]; exact hIT)
      subst hn hr
      refine ⟨iff_of_true (by simp) hb1, iff_of_false (by simp) hb2,
        ?_, ?_, ?_, ?_⟩
      · intro _
        rw [hg]
        rfl
      · intro _ hc
        exact absurd hc hb2
      · intro hc
        exact absurd hb1 hc
      · rw [if_pos hb1, if_neg hb2,
          show (8 : Nat) + 16 + 0 = 24 from rfl, hS]
        rfl
  · obtain ⟨hn, hr⟩ := readGuidWhen_false
      (by rw [← beq_eq_false_iff_ne.mpr hb1]; exact hOT)
    subst hn hr
    by_cases hb2 : raw &&& 3 &&& 2 = 2
    · rw [beq_iff_eq.mpr hb2] at hIT
      obtain ⟨g2, hg2, hg2ty⟩ := readGuidWhen_true hIT
      subst hg2ty
      have hgr2 : bs4 = bs.drop 24 := by
        rw [Guid.from_reader_drop hg2]
        simp [List.drop_drop]
      subst hgr2
      refine ⟨iff_of_false (by simp) hb1, iff_of_true (by simp) hb2,
        ?_, ?_, ?_, ?_⟩
      · intro hc
        exact absurd hc hb1
      · intro hc
        exact absurd hc hb1
      · intro _ _
        rw [hg2]
        rfl
      · rw [if_neg hb1, if_pos hb2,
          show (8 : Nat) + 0 + 16 = 24 from rfl, hS]
        rfl
    · obtain ⟨hn2, hr2⟩ := readGuidWhen_false
        (by rw [← beq_eq_false_iff_ne.mpr hb2]; exact hIT)
      subst hn2 hr2
      refine ⟨iff_of_false (by simp) hb1, iff_of_false (by simp) hb2,
        ?_, ?_, ?_, ?_⟩
      · intro hc
        exact absurd hc hb1
      · intro hc
        exact absurd hc hb1
      · intro _ hc
        exact absurd hc hb2
      · rw [if_neg hb1, if_neg hb2,
          show (8 : Nat) + 0 + 0 = 8 from rfl, hS]
        rfl

theorem readAclWhen_pos {off : Nat} {data : List Nat} {base : Nat}
    {v : Option Acl} (hoff : 0 < off) (h : readAclWhen off data base = some v) :
    ∃ p, (Acl.from_reader (data.drop (base + off))).toOption = some p ∧
      v = some p.1 := by
  unfold readAclWhen at h
  rw [if_pos hoff] at h
  obtain ⟨p, hp, hv⟩ := Option.map_eq_some'.mp h
  exact ⟨p, hp, hv.symm⟩

theorem readAclWhen_zero {off : Nat} {data : List Nat} {base : Nat}
    {v : Option Acl} (hoff : ¬0 < off)
    (h : readAclWhen off data base = some v) : v = none := by
  unfold readAclWhen at h
  rw [if_neg hoff] at h
  simpa using h.symm

/-- Claim C5: for every successfully decoded security descriptor the DACL is
present iff the header's DACL offset is nonzero and the SACL is present iff
the SACL offset is nonzero — the control-flag bits play no role — and a
present ACL is exactly the one decoded after seeking to base + offset, where
base is the stream position at which the header began. -/
theorem c5_dacl_sacl_offset_sentinel (data : List Nat) (base : Nat)
    (sd : SecurityDescriptor)
    (h : SecurityDescriptor.new data base = some sd) :
    (sd.dacl.isSome ↔ sd.header.dacl_offset ≠ 0) ∧
    (sd.sacl.isSome ↔ sd.header.sacl_offset ≠ 0) ∧
    (∀ a, sd.dacl = some a →
      (Acl.from_reader (data.drop (base + sd.header.dacl_offset))).toOption.map
        Prod.fst = some a) ∧
    (∀ a, sd.sacl = some a →
      (Acl.from_reader (data.drop (base + sd.header.sacl_offset))).toOption.map
        Prod.fst = some a) := by
  unfold SecurityDescriptor.new at h
  simp only [obind_eq_some] at h
  obtain ⟨⟨hbuf, hrest⟩, h1, h⟩ := h
  obtain ⟨hdr, h2, h⟩ := h
  obtain ⟨owner, h3, h⟩ := h
  obtain ⟨group, h4, h⟩ := h
  obtain ⟨daclv, h5, h⟩ := h
  obtain ⟨saclv, h6, h⟩ := h
  simp only [Option.some.injEq] at h
  subst h
  have hdacl : (daclv.isSome ↔ hdr.dacl_offset ≠ 0) ∧
      ∀ a, daclv = some a →
        (Acl.from_reader (data.drop (base + hdr.dacl_offset))).toOption.map
          Prod.fst = some a := by
    by_cases hoff : 0 < hdr.dacl_offset
    · obtain ⟨p, hp, hv⟩ := readAclWhen_pos hoff h5
      subst hv
      refine ⟨iff_of_true (by simp) (by omega), ?_⟩
      intro a ha
      simp only [Option.some.injEq] at ha
      rw [hp]
      simp [ha]
    · have hv := readAclWhen_zero hoff h5
      subst hv
      refine ⟨iff_of_false (by simp) (by omega), ?_⟩
      intro a ha
      simp at ha
  have hsacl : (saclv.isSome ↔ hdr.sacl_offset ≠ 0) ∧
      ∀ a, saclv = some a →
        (Acl.from_reader (data.drop (base + hdr.sacl_offset))).toOption.map
          Prod.fst = some a := by
    by_cases hoff : 0 < hdr.sacl_offset
    · obtain ⟨p, hp, hv⟩ := readAclWhen_pos hoff h6
      subst hv
      refine ⟨iff_of_true (by simp) (by omega), ?_⟩
      intro a ha
      simp only [Option.some.injEq] at ha
      rw [hp]
      simp [ha]
    · have hv := readAclWhen_zero hoff h6
      subst hv
      refine ⟨iff_of_false (by simp) (by omega), ?_⟩
      intro a ha
      simp at ha
  exact ⟨hdacl.1, hsacl.1, hdacl.2, hsacl.2⟩

/-- The SID S-1-5 with no sub-authorities, encoded as 01 00 00 00 00 00 00 05:
a minimal valid SID used as concrete input below. -/
def sidS5 : Sid :=
  { revision_number := 1, sub_authority_count := 0, authority := 5,
    sub_authorities := [] }

def c5data : List Nat :=
  [1, 0, 20, 0, 20, 0, 0, 0, 28, 0, 0, 0, 0, 0, 0, 0, 36, 0, 0, 0,
   1, 0, 0, 0, 0, 0, 0, 5, 1, 0, 0, 0, 0, 0, 0, 5, 2, 0, 8, 0, 0, 0, 0, 0]

def c5sd : SecurityDescriptor :=
  { header := { revision_number := 1, padding1 := 0, control_flags := 20,
                owner_sid_offset := 20, group_sid_offset := 28,
                sacl_offset := 0, dacl_offset := 36 },
    owner_sid := sidS5, group_sid := sidS5,
    dacl := some { revision := 2, padding1 := 0, size := 8, count := 0,
                   padding2 := 0, entries := [] },
    sacl := none }

/-- Witness for claim C5 at a concrete descriptor whose control flags claim
both ACLs present (bits 0x4 and 0x10 set) while the SACL offset is zero: the
DACL at offset 36 is decoded, the SACL is absent. -/
theorem c5_dacl_sacl_offset_sentinel_witness :
    (c5sd.dacl.isSome ↔ c5sd.header.dacl_offset ≠ 0) ∧
    (c5sd.sacl.isSome ↔ c5sd.header.sacl_offset ≠ 0) ∧
    (∀ a, c5sd.dacl = some a →
      (Acl.from_reader (c5data.drop (0 + c5sd.header.dacl_offset))).toOption.map
        Prod.fst = some a) ∧
    (∀ a, c5sd.sacl = some a →
      (Acl.from_reader (c5data.drop (0 + c5sd.header.sacl_offset))).toOption.map
        Prod.fst = some a) :=
  c5_dacl_sacl_offset_sentinel c5data 0 c5sd (by rfl)

def c6bytes : List Nat :=
  [0, 0, 0, 0, 1, 0, 0, 0,
   0, 0, 0, 0, 0, 0, 0, 0, 0, 0, 0, 0, 0, 0, 0, 0,
   1, 0, 0, 0, 0, 0, 0, 5]

def c6obj : AceObject :=
  { access_rights := 0, flags := 1,
    object_type := some { data1 := 0, data2 := 0, data3 := 0,
                          data4 := [0, 0, 0, 0, 0, 0, 0, 0] },
    inherited_type := none, sid := sidS5 }

/-- Witness for claim C6 at a concrete object ACE payload with flag bit 0x1
set and bit 0x2 clear: the object-type GUID is present (read at offset 8),
the inherited-type GUID absent, the SID trailing. -/
theorem c6_object_ace_guid_gating_witness :
    (c6obj.object_type.isSome ↔ c6obj.flags &&& 1 = 1) ∧
    (c6obj.inherited_type.isSome ↔ c6obj.flags &&& 2 = 2) ∧
    (c6obj.flags &&& 1 = 1 →
      (Guid.from_reader (c6bytes.drop 8)).map
        (fun p => (some p.1 : Option Guid)) = some c6obj.object_type) ∧
    (c6obj.flags &&& 1 = 1 → c6obj.flags &&& 2 = 2 →
      (Guid.from_reader (c6bytes.drop 24)).map
        (fun p => (some p.1 : Option Guid)) = some c6obj.inherited_type) ∧
    (¬c6obj.flags &&& 1 = 1 → c6obj.flags &&& 2 = 2 →
      (Guid.from_reader (c6bytes.drop 8)).map
        (fun p => (some p.1 : Option Guid)) = some c6obj.inherited_type) ∧
    ((Sid.new (c6bytes.drop (8 + (if c6obj.flags &&& 1 = 1 then 16 else 0) +
        (if c6obj.flags &&& 2 = 2 then 16 else 0)))).map (fun p => p.1) =
      some c6obj.sid) :=
  c6_object_ace_guid_gating c6bytes c6obj [] (by rfl)

def c7bytes : List Nat :=
  [2, 0, 24, 0, 1, 0, 0, 0, 0, 0, 16, 0, 255, 1, 15, 0, 1, 0, 0, 0, 0, 0, 0, 5]

def c7acl : Acl :=
  { revision := 2, padding1 := 0, size := 24, count := 1, padding2 := 0,
    entries := [{ ace_type := AceType.AccessAllowed, ace_flags := 0,
                  size := 16,
                  data := AceData.Basic { access_rights := 983551,
                                          sid := sidS5 } }] }

/-- Witness for claim C7 at a concrete ACL declaring count 1 followed by one
basic ACE: the decoded entry list has length 1 and appending extra bytes
changes nothing. -/
theorem c7_acl_entry_count_witness :
    c7acl.entries.length = c7acl.count ∧
    (∀ extra, Acl.from_reader (c7bytes ++ extra) =
      Except.ok (c7acl, [] ++ extra)) :=
  c7_acl_entry_count c7bytes c7acl [] (by rfl)

/-- Witness for claim C10 at a concrete basic ACE of declared size 17 whose
payload holds the 4-byte access mask, an 8-byte SID and one excess byte
(0x09): decoding succeeds, the excess byte leaves no trace, and the stream
after the ACE ([8, 8]) is untouched. -/
theorem c10_basic_ace_trailing_bytes_discarded_witness :
    Ace.from_reader
        (0 :: 0 :: 17 :: 0 ::
          ([0, 0, 0, 0, 1, 0, 0, 0, 0, 0, 0, 5] ++ ([9] ++ [8, 8]))) =
      Except.ok ({ ace_type := AceType.AccessAllowed, ace_flags := 0,
                   size := 17,
                   data := AceData.Basic { access_rights := 0, sid := sidS5 } },
        [8, 8]) :=
  c10_basic_ace_trailing_bytes_discarded 0 0 17 0
    [0, 0, 0, 0, 1, 0, 0, 0, 0, 0, 0, 5] [9] [8, 8]
    { access_rights := 0, sid := sidS5 } AceType.AccessAllowed
    (by rfl) (by rfl) (by decide) (by decide) (by decide) (by rfl)
